import Mathlib

/-!
Shallow embedding of `process_attendance.py` (aisc-attendance).

The remote tabular store (a Google-Sheets worksheet) is modelled as a value of
type `List (List String)`: the list of rows returned by `get_all_values`, the
first row being the header row.  Reads that happen after a write inside one
call (the id-assignment polling of `get_or_create_attendee` and
`create_session`) are passed in explicitly as extra snapshot parameters, since
the store is eventually consistent and the contents of those reads are chosen
by the environment.  Side effects (`append_row`, `update_cell`) are returned
as explicit effect lists instead of being performed.

Python `str.lower()` and `str.strip()` are modelled by `pyLower` / `pyStrip`
below (ASCII case folding; whitespace = space, tab, CR, LF), operating on the
character-list representation of `String`.
-/

/-- The upper-to-lower case table of the basic latin alphabet. -/
def asciiUpperLower : List (Char × Char) :=
  [('A', 'a'), ('B', 'b'), ('C', 'c'), ('D', 'd'), ('E', 'e'), ('F', 'f'),
   ('G', 'g'), ('H', 'h'), ('I', 'i'), ('J', 'j'), ('K', 'k'), ('L', 'l'),
   ('M', 'm'), ('N', 'n'), ('O', 'o'), ('P', 'p'), ('Q', 'q'), ('R', 'r'),
   ('S', 's'), ('T', 't'), ('U', 'u'), ('V', 'v'), ('W', 'w'), ('X', 'x'),
   ('Y', 'y'), ('Z', 'z')]

/-- Model of Python `str.lower()` on a single character (ASCII range; all the
data handled by the program is ASCII). -/
def pyLowerChar (c : Char) : Char :=
  match asciiUpperLower.find? (fun p => p.1 == c) with
  | some p => p.2
  | none => c

/-- Model of Python `str.lower()`. -/
def pyLower (s : String) : String := ⟨s.data.map pyLowerChar⟩

/-- Model of Python `str.strip()`: drop whitespace from both ends. -/
def pyStrip (s : String) : String :=
  ⟨((s.data.dropWhile Char.isWhitespace).reverse.dropWhile Char.isWhitespace).reverse⟩

/-- A record as built by `get_or_create_attendee` lines 203-209: a Python dict
from header name to cell value, represented as the association list in
insertion order.  Lookup (`dget`) returns the value of the LAST binding of a
key (Python dict assignment overwrites), and `""` when the key is absent
(Python `dict.get(k, "")`). -/
def dget (r : List (String × String)) (k : String) : String :=
  match r.reverse.find? (fun p => p.1 == k) with
  | some p => p.2
  | none => ""

/-- Lines 206-209: `record[header] = row[i] if i < len(row) else ""` for each
header, in order. -/
def mkRecord (headers row : List String) : List (String × String) :=
  headers.enum.map (fun p => (p.2, row.getD p.1 ""))

/-- Lines 200-209: header-mapped records of a sheet snapshot; empty when the
snapshot has at most the header row. -/
def recordsOf (vals : List (List String)) : List (List (String × String)) :=
  if vals.length ≤ 1 then []
  else vals.tail.map (mkRecord (vals.headD []))

/-- First element (with its index) satisfying `p`, scanning left to right:
the `for idx, record in enumerate(records): if ...: return` loops. -/
def findIdxRec {α : Type} (p : α → Bool) : List α → Option (Nat × α)
  | [] => none
  | r :: rs => if p r then some (0, r) else (findIdxRec p rs).map (fun q => (q.1 + 1, q.2))

/-- Value of a digit string in base 10. -/
def digitsToNat (ds : List Char) : Nat :=
  ds.foldl (fun n c => n * 10 + (c.toNat - 48)) 0

/-- Model of Python `int(s)` on an already-stripped string: an optional sign
followed by at least one digit; `none` models the `ValueError` raised
otherwise. -/
def pyParseInt (s : String) : Option Int :=
  match s.data with
  | '-' :: ds => if ds ≠ [] ∧ ds.all Char.isDigit then some (-(digitsToNat ds : Int)) else none
  | '+' :: ds => if ds ≠ [] ∧ ds.all Char.isDigit then some ((digitsToNat ds : Int)) else none
  | ds => if ds ≠ [] ∧ ds.all Char.isDigit then some ((digitsToNat ds : Int)) else none

/-- Model of `int(attendee_id) if attendee_id else None` applied to an
already-stripped string (lines 216, 227, 235, 262, 288).  A non-empty,
non-numeric id makes Python raise instead (caught by `main` and likewise
producing no id); the claims only exercise blank or numeric ids. -/
def parseId (s : String) : Option Int := if s = "" then none else pyParseInt s

/-- Result of one `get_or_create_attendee` call: the returned id (`none` for
Python `None`), the `update_cell(row, col, value)` calls issued (1-based row
and column), and the rows passed to `append_row`. -/
structure GocaResult where
  ret : Option Int
  updates : List (Nat × Nat × String)
  appends : List (List String)
deriving DecidableEq

/-- Line 213-214: stored email compared by `.strip().lower()` against
`email.lower()`. -/
def emailMatchPred (email : String) (r : List (String × String)) : Bool :=
  pyLower (pyStrip (dget r "email")) == pyLower email

/-- Lines 220-222: stored name `.strip().lower()` equals `name.lower().strip()`
and the stored email is empty after stripping. -/
def backfillPred (nameLower : String) (r : List (String × String)) : Bool :=
  (pyLower (pyStrip (dget r "name")) == nameLower) && (pyStrip (dget r "email") == "")

/-- Lines 231-233: stored name `.strip().lower()` equals `name.lower().strip()`. -/
def nameMatchPred (nameLower : String) (r : List (String × String)) : Bool :=
  pyLower (pyStrip (dget r "name")) == nameLower

/-- Lines 237-262 of `get_or_create_attendee`: append `["", name, email]`,
then poll for the store-assigned id.  `read2` and `read3` are the snapshots
returned by the two `get_all_values()` polls after the append (the second is
only consulted when the first shows a blank id; Python indexing
`all_values[-1]` on an empty second snapshot is modelled as the empty row,
which likewise yields no id). -/
def appendPhase (read2 read3 : List (List String)) (name email : String) : GocaResult :=
  let newRow := ["", name, if email ≠ "" then email else ""]
  if read2.length ≤ 1 then ⟨none, [], [newRow]⟩
  else
    let headers := read2.headD []
    let lastRecord := mkRecord headers (read2.getLastD [])
    let aid := pyStrip (dget lastRecord "id")
    if aid ≠ "" then ⟨parseId aid, [], [newRow]⟩
    else
      let lastRecord2 := mkRecord headers (read3.getLastD [])
      ⟨parseId (pyStrip (dget lastRecord2 "id")), [], [newRow]⟩

/-- Lines 191-262: `get_or_create_attendee(sheet, name, email)`.  `vals` is the
snapshot returned by the initial `get_all_values()`; `read2`, `read3` are the
post-append polling snapshots (unused unless the append branch is reached). -/
def get_or_create_attendee (vals read2 read3 : List (List String)) (name email : String) : GocaResult :=
  let records := recordsOf vals
  if email ≠ "" then
    match findIdxRec (emailMatchPred email) records with
    | some q => ⟨parseId (pyStrip (dget q.2 "id")), [], []⟩
    | none =>
      let nameLower := pyStrip (pyLower name)
      match findIdxRec (backfillPred nameLower) records with
      | some q => ⟨parseId (pyStrip (dget q.2 "id")), [(q.1 + 2, 3, email)], []⟩
      | none => appendPhase read2 read3 name email
  else
    let nameLower := pyStrip (pyLower name)
    match findIdxRec (nameMatchPred nameLower) records with
    | some q => ⟨parseId (pyStrip (dget q.2 "id")), [], []⟩
    | none => appendPhase read2 read3 name email

/-- Result of `create_session`: returned id and appended rows. -/
structure CSResult where
  ret : Option Int
  appends : List (List String)
deriving DecidableEq

/-- Lines 265-290: `create_session(sheet, url, title, date)`.  `read2`, `read3`
are the two polling snapshots after the append.  `session_id` is a string with
`""` standing for both Python `None` and the empty string (they are
interchangeable in every use: both are falsy). -/
def create_session (read2 read3 : List (List String)) (url title date : String) : CSResult :=
  let newRow := ["", url, title, date]
  if 1 < read2.length then
    let lastRow := read2.getLastD []
    let sid := if lastRow ≠ [] ∧ lastRow.headD "" ≠ "" then pyStrip (lastRow.headD "") else ""
    if sid ≠ "" then ⟨parseId sid, [newRow]⟩
    else
      let lastRow3 := read3.getLastD []
      let sid3 := if lastRow3 ≠ [] ∧ lastRow3.headD "" ≠ "" then pyStrip (lastRow3.headD "") else ""
      ⟨parseId sid3, [newRow]⟩
  else ⟨none, [newRow]⟩

/-- Lines 424-427 of `main`: `if not member_id: ... skipped_count += 1;
continue` — a `None` or `0` attendee id makes `main` skip the participant and
continue the run. -/
def mainSkipsParticipant (memberId : Option Int) : Bool :=
  match memberId with
  | none => true
  | some n => n == 0

/-- Lines 391-393 of `main`: `if not session_id: ... return` — a `None` or `0`
session id aborts the run before any attendance logging. -/
def mainAbortsRun (sessionId : Option Int) : Bool :=
  match sessionId with
  | none => true
  | some n => n == 0

/-- Outcome of the LLM name-validation HTTP call, as distinguished by
`validate_names_with_llm` (lines 59-105).  `badStatus code` stands for a
response with `status_code ≠ 200`; `unparseableBody` for a 200 response whose
body raises during extraction or `json.loads`. -/
inductive LLMOutcome where
  | ok (parsed : List String)
  | noApiKey
  | transportError
  | badStatus (code : Nat)
  | unparseableBody
deriving DecidableEq

/-- Lines 35-105: `validate_names_with_llm(names)`.  An empty input returns
`[]` before any call; a successful, parseable 200 response returns the parsed
list verbatim; every other outcome returns `names` unchanged. -/
def validate_names_with_llm (names : List String) (outcome : LLMOutcome) : List String :=
  if names = [] then []
  else
    match outcome with
    | .ok parsed => parsed
    | _ => names

/-- Characters of `l` strictly before the first occurrence of the substring
`sep`; `none` when `sep` does not occur.  Models Python
`raw.split(sep)[0]` combined with the `sep in raw` test. -/
def takeBeforeSub (sep : List Char) : List Char → Option (List Char)
  | [] => if sep = [] then some [] else none
  | c :: cs =>
    if sep.isPrefixOf (c :: cs) then some []
    else (takeBeforeSub sep cs).map (fun l => c :: l)

/-- Lines 181-185: the validation applied to an extracted email candidate. -/
def validEmailStr (email : String) : Bool :=
  email != "" && email != "nan" && email.data.contains '@' &&
    !(email.data.contains ' ') && decide (3 < email.data.length)

/-- Lines 174-186 of `extract_emails`, per cell: take the part of the cell
before `"<br>"` when present (otherwise the whole cell), strip it, and keep it
iff it passes validation.  `none` means no mapping entry is produced. -/
def extractEmailCell (emailRaw : String) : Option String :=
  let email :=
    match takeBeforeSub "<br>".data emailRaw.data with
    | some before => pyStrip ⟨before⟩
    | none => pyStrip emailRaw
  if validEmailStr email then some email else none

/-- Characters before the first `','` (the whole list when there is none):
Python `date_string.split(",")[0]`. -/
def takeBeforeComma : List Char → List Char
  | [] => []
  | c :: cs => if c = ',' then [] else c :: takeBeforeComma cs

/-- Whitespace-separated tokens: the `\s+` separators of CPython strptime
format compilation (the input is already stripped). -/
def wsTokens (s : String) : List (List Char) :=
  (s.data.splitOnP Char.isWhitespace).filter (fun w => w ≠ [])

/-- C-locale abbreviated weekday names accepted by `%a` (compared lowercased). -/
def weekdayAbbrevs : List String := ["mon", "tue", "wed", "thu", "fri", "sat", "sun"]

/-- C-locale abbreviated month names accepted by `%b` (compared lowercased). -/
def monthAbbrevs : List String :=
  ["jan", "feb", "mar", "apr", "may", "jun", "jul", "aug", "sep", "oct", "nov", "dec"]

/-- CPython strptime `%d`: one or two digits with value 1-31. -/
def parseDayTok (t : List Char) : Option Nat :=
  if t ≠ [] ∧ t.all Char.isDigit ∧ t.length ≤ 2 ∧ 1 ≤ digitsToNat t ∧ digitsToNat t ≤ 31
  then some (digitsToNat t) else none

/-- CPython strptime `%b`: abbreviated month name, case-insensitive. -/
def parseMonthTok (t : List Char) : Option Nat :=
  (monthAbbrevs.findIdx? (fun m => m == pyLower (String.mk t))).map (fun i => i + 1)

/-- CPython strptime `%Y`: exactly four digits; year 0 is rejected by the
`datetime` constructor (MINYEAR = 1). -/
def parseYearTok (t : List Char) : Option Nat :=
  if t.all Char.isDigit ∧ t.length = 4 ∧ 1 ≤ digitsToNat t
  then some (digitsToNat t) else none

/-- Gregorian leap-year rule used by `datetime`. -/
def isLeapYear (y : Nat) : Bool :=
  y % 4 == 0 && (y % 100 != 0 || y % 400 == 0)

/-- Days in a month, as validated by the `datetime` constructor. -/
def daysInMonth (y m : Nat) : Nat :=
  if m = 2 then (if isLeapYear y then 29 else 28)
  else if m = 4 ∨ m = 6 ∨ m = 9 ∨ m = 11 then 30
  else 31

/-- Zero-pad to two digits (`%m`, `%d` of strftime). -/
def pad2 (n : Nat) : String := if n < 10 then "0" ++ toString n else toString n

/-- Zero-pad to four digits (`%Y` of strftime). -/
def pad4 (n : Nat) : String :=
  if n < 10 then "000" ++ toString n
  else if n < 100 then "00" ++ toString n
  else if n < 1000 then "0" ++ toString n
  else toString n

/-- `datetime.strptime(date_part, "%a %d %b %Y")` on an already-stripped
input: four whitespace-separated tokens — a weekday abbreviation, a 1-2 digit
day, a month abbreviation, a 4-digit year — with the day validated against the
month length.  Returns `(year, month, day)`. -/
def strptimeWdDdMonYYYY (datePart : String) : Option (Nat × Nat × Nat) :=
  match wsTokens datePart with
  | [wd, d, mon, y] =>
    if weekdayAbbrevs.contains (pyLower (String.mk wd)) then
      match parseDayTok d, parseMonthTok mon, parseYearTok y with
      | some dn, some mn, some yn =>
        if dn ≤ daysInMonth yn mn then some (yn, mn, dn) else none
      | _, _, _ => none
    else none
  | _ => none

/-- Lines 108-111: `parse_quiz_date(date_string)` — drop everything from the
first comma on, strip, parse as `"%a %d %b %Y"`, format as `"%Y-%m-%d"`.
`none` models the `ValueError` raised by `strptime` on a non-matching input. -/
def parse_quiz_date (dateString : String) : Option String :=
  let datePart := pyStrip ⟨takeBeforeComma dateString.data⟩
  (strptimeWdDdMonYYYY datePart).map
    (fun t => pad4 t.1 ++ "-" ++ pad2 t.2.1 ++ "-" ++ pad2 t.2.2)

/-- Set the 0-based `n`-th cell of a row to `x`, padding with empty cells when
the row is shorter (a worksheet cell write at a column beyond the stored row
extends the row). -/
def setCol0 : List String → Nat → String → List String
  | [], 0, x => [x]
  | [], n+1, x => "" :: setCol0 [] n x
  | _ :: rest, 0, x => x :: rest
  | a :: rest, n+1, x => a :: setCol0 rest n x

/-- Replace the 0-based `n`-th row by `f` of it (no change out of range). -/
def updateRowV : List (List String) → Nat → (List String → List String) → List (List String)
  | [], _, _ => []
  | v :: vs, 0, f => f v :: vs
  | v :: vs, n+1, f => v :: updateRowV vs n f

/-- Apply one recorded `update_cell(row, col, value)` effect (1-based row and
column) to a sheet snapshot. -/
def applyUpdate (vals : List (List String)) (u : Nat × Nat × String) : List (List String) :=
  updateRowV vals (u.1 - 1) (fun row => setCol0 row (u.2.1 - 1) u.2.2)

/-- The sheet snapshot visible after a `get_or_create_attendee` call whose
effects are `res`, once the store has filled the id column of the appended row
with `idStr` (possibly `""` when the store assigned nothing). -/
def visibleAfter (vals : List (List String)) (res : GocaResult) (idStr : String) : List (List String) :=
  (res.updates.foldl applyUpdate vals) ++ res.appends.map (fun row => setCol0 row 0 idStr)


/-! ### Helper lemmas: characters and Python string primitives -/

theorem asciiUpperLower_not_whitespace :
    ∀ p ∈ asciiUpperLower, p.2.isWhitespace = false ∧ p.1.isWhitespace = false := by
  decide

theorem isWhitespace_pyLowerChar (c : Char) :
    (pyLowerChar c).isWhitespace = c.isWhitespace := by
  unfold pyLowerChar
  cases h : asciiUpperLower.find? (fun p => p.1 == c) with
  | none => rfl
  | some p =>
    have hmem := List.mem_of_find?_eq_some h
    have hc : p.1 = c := by simpa using List.find?_some h
    have hws := asciiUpperLower_not_whitespace p hmem
    rw [← hc, hws.1, hws.2]

theorem whitespace_comp_pyLowerChar :
    Char.isWhitespace ∘ pyLowerChar = Char.isWhitespace :=
  funext isWhitespace_pyLowerChar

theorem pyStrip_pyLower (s : String) : pyStrip (pyLower s) = pyLower (pyStrip s) := by
  unfold pyStrip pyLower
  congr 1
  rw [List.dropWhile_map, whitespace_comp_pyLowerChar, ← List.map_reverse,
    List.dropWhile_map, whitespace_comp_pyLowerChar, ← List.map_reverse]

/-! ### Helper lemmas: the enumerate-search loop -/

theorem findIdxRec_eq_none {α : Type} (p : α → Bool) (l : List α) :
    findIdxRec p l = none ↔ ∀ r ∈ l, p r = false := by
  induction l with
  | nil => simp [findIdxRec]
  | cons x xs ih =>
    by_cases h : p x
    · simp [findIdxRec, h]
    · simp [findIdxRec, h, Option.map_eq_none', ih]

theorem findIdxRec_eq_some {α : Type} {p : α → Bool} {l : List α} {i : Nat} {x : α}
    (h : findIdxRec p l = some (i, x)) :
    l[i]? = some x ∧ p x = true ∧ ∀ j, j < i → ∀ y, l[j]? = some y → p y = false := by
  induction l generalizing i with
  | nil => simp [findIdxRec] at h
  | cons a as ih =>
    rw [findIdxRec] at h
    by_cases hpa : p a
    · rw [if_pos hpa] at h
      injection h with h'
      have hi : i = 0 := (Prod.mk.injEq 0 a i x).mp h' |>.1 |>.symm
      have hx : x = a := ((Prod.mk.injEq 0 a i x).mp h').2.symm
      subst hi; subst hx
      refine ⟨by simp, hpa, ?_⟩
      intro j hj
      omega
    · rw [if_neg hpa] at h
      cases hq : findIdxRec p as with
      | none => rw [hq] at h; simp at h
      | some q =>
        obtain ⟨i', x'⟩ := q
        rw [hq] at h
        simp only [Option.map_some'] at h
        injection h with h'
        have hi : i = i' + 1 := ((Prod.mk.injEq (i' + 1) x' i x).mp h').1.symm
        have hx : x = x' := ((Prod.mk.injEq (i' + 1) x' i x).mp h').2.symm
        subst hi; subst hx
        obtain ⟨hget, hp, hprev⟩ := ih hq
        refine ⟨by simpa using hget, hp, ?_⟩
        intro j hj y hy
        cases j with
        | zero => simp at hy; subst hy; exact eq_false_of_ne_true hpa
        | succ j' =>
          exact hprev j' (by omega) y (by simpa using hy)

theorem findIdxRec_of {α : Type} {p : α → Bool} {l : List α} {i : Nat} {x : α}
    (hget : l[i]? = some x) (hp : p x = true)
    (hprev : ∀ j, j < i → ∀ y, l[j]? = some y → p y = false) :
    findIdxRec p l = some (i, x) := by
  induction l generalizing i with
  | nil => simp at hget
  | cons a as ih =>
    cases i with
    | zero =>
      simp only [List.getElem?_cons_zero, Option.some.injEq] at hget
      subst hget
      simp [findIdxRec, hp]
    | succ n =>
      have hpa : p a = false := hprev 0 (Nat.succ_pos n) a (by simp)
      rw [findIdxRec, if_neg (by simp [hpa])]
      rw [ih (by simpa using hget)
        (fun j hj y hy => hprev (j + 1) (by omega) y (by simpa using hy))]
      rfl

theorem findIdxRec_append_singleton {α : Type} {p : α → Bool} {l : List α} {x : α}
    (hall : ∀ r ∈ l, p r = false) :
    findIdxRec p (l ++ [x]) = if p x then some (l.length, x) else none := by
  by_cases hx : p x
  · rw [if_pos hx]
    refine findIdxRec_of ?_ hx ?_
    · rw [List.getElem?_append_right (Nat.le_refl _)]
      simp
    · intro j hj y hy
      rw [List.getElem?_append_left hj] at hy
      exact hall y (List.getElem?_mem hy)
  · rw [if_neg hx]
    rw [findIdxRec_eq_none]
    intro r hr
    rcases List.mem_append.mp hr with h | h
    · exact hall r h
    · simp only [List.mem_singleton] at h
      subst h
      exact eq_false_of_ne_true hx

/-! ### Helper lemmas: records and sheet rows -/

theorem dget_mkRecord_std_id (row : List String) :
    dget (mkRecord ["id", "name", "email"] row) "id" = row.getD 0 "" := rfl

theorem dget_mkRecord_std_name (row : List String) :
    dget (mkRecord ["id", "name", "email"] row) "name" = row.getD 1 "" := rfl

theorem dget_mkRecord_std_email (row : List String) :
    dget (mkRecord ["id", "name", "email"] row) "email" = row.getD 2 "" := rfl

theorem recordsOf_cons (hdr : List String) (rows : List (List String)) :
    recordsOf (hdr :: rows) = rows.map (mkRecord hdr) := by
  cases rows <;> rfl

theorem setCol0_getD_self (row : List String) (n : Nat) (x : String) :
    (setCol0 row n x).getD n "" = x := by
  induction n generalizing row with
  | zero => cases row <;> rfl
  | succ n ih =>
    cases row with
    | nil => exact ih []
    | cons a as => exact ih as

theorem setCol0_getD_lt (row : List String) (n k : Nat) (x : String) (h : k < n) :
    (setCol0 row n x).getD k "" = row.getD k "" := by
  induction n generalizing row k with
  | zero => omega
  | succ n ih =>
    cases row with
    | nil =>
      cases k with
      | zero => rfl
      | succ k' => exact (ih [] k' (by omega)).trans (by cases k' <;> rfl)
    | cons a as =>
      cases k with
      | zero => rfl
      | succ k' => exact ih as k' (by omega)

theorem updateRowV_getElem?_ne (l : List (List String)) (n j : Nat)
    (f : List String → List String) (h : j ≠ n) :
    (updateRowV l n f)[j]? = l[j]? := by
  induction l generalizing n j with
  | nil => rfl
  | cons a as ih =>
    cases n with
    | zero =>
      cases j with
      | zero => omega
      | succ j' => simp [updateRowV]
    | succ n' =>
      cases j with
      | zero => simp [updateRowV]
      | succ j' => simpa [updateRowV] using ih n' j' (by omega)

theorem updateRowV_getElem?_self (l : List (List String)) (n : Nat)
    (f : List String → List String) :
    (updateRowV l n f)[n]? = l[n]?.map f := by
  induction l generalizing n with
  | nil => rfl
  | cons a as ih =>
    cases n with
    | zero => simp [updateRowV]
    | succ n' => simpa [updateRowV] using ih n'

/-! ### Helper lemmas: branch analysis of `get_or_create_attendee` -/

theorem ite_email_self (email : String) : (if email ≠ "" then email else "") = email := by
  by_cases h : email = "" <;> simp [h]

theorem goca_email_some {vals read2 read3 : List (List String)} {name email : String}
    {q : Nat × List (String × String)}
    (he : email ≠ "") (h : findIdxRec (emailMatchPred email) (recordsOf vals) = some q) :
    get_or_create_attendee vals read2 read3 name email =
      ⟨parseId (pyStrip (dget q.2 "id")), [], []⟩ := by
  simp only [get_or_create_attendee]
  rw [if_pos he, h]

theorem goca_backfill_some {vals read2 read3 : List (List String)} {name email : String}
    {q : Nat × List (String × String)}
    (he : email ≠ "")
    (h1 : findIdxRec (emailMatchPred email) (recordsOf vals) = none)
    (h2 : findIdxRec (backfillPred (pyStrip (pyLower name))) (recordsOf vals) = some q) :
    get_or_create_attendee vals read2 read3 name email =
      ⟨parseId (pyStrip (dget q.2 "id")), [(q.1 + 2, 3, email)], []⟩ := by
  simp only [get_or_create_attendee]
  rw [if_pos he, h1, h2]

theorem goca_append_of_email {vals read2 read3 : List (List String)} {name email : String}
    (he : email ≠ "")
    (h1 : findIdxRec (emailMatchPred email) (recordsOf vals) = none)
    (h2 : findIdxRec (backfillPred (pyStrip (pyLower name))) (recordsOf vals) = none) :
    get_or_create_attendee vals read2 read3 name email =
      appendPhase read2 read3 name email := by
  simp only [get_or_create_attendee]
  rw [if_pos he, h1, h2]

theorem goca_name_some {vals read2 read3 : List (List String)} {name email : String}
    {q : Nat × List (String × String)}
    (he : email = "")
    (h : findIdxRec (nameMatchPred (pyStrip (pyLower name))) (recordsOf vals) = some q) :
    get_or_create_attendee vals read2 read3 name email =
      ⟨parseId (pyStrip (dget q.2 "id")), [], []⟩ := by
  simp only [get_or_create_attendee]
  rw [if_neg (by simp [he]), h]

theorem goca_name_none {vals read2 read3 : List (List String)} {name email : String}
    (he : email = "")
    (h : findIdxRec (nameMatchPred (pyStrip (pyLower name))) (recordsOf vals) = none) :
    get_or_create_attendee vals read2 read3 name email =
      appendPhase read2 read3 name email := by
  simp only [get_or_create_attendee]
  rw [if_neg (by simp [he]), h]

theorem appendPhase_concat_self (hdr : List String) (rows : List (List String))
    (lastRow : List String) (name email : String) :
    appendPhase ((hdr :: rows) ++ [lastRow]) ((hdr :: rows) ++ [lastRow]) name email =
      ⟨parseId (pyStrip (dget (mkRecord hdr lastRow) "id")), [], [["", name, email]]⟩ := by
  simp only [appendPhase, ite_email_self]
  rw [if_neg (by simp)]
  have h1 : ((hdr :: rows) ++ [lastRow]).headD [] = hdr := rfl
  have h2 : ((hdr :: rows) ++ [lastRow]).getLastD [] = lastRow := by
    rw [List.cons_append, List.getLastD_cons, List.getLastD_concat]
  rw [h1, h2]
  by_cases haid : pyStrip (dget (mkRecord hdr lastRow) "id") = ""
  · rw [if_neg (by simp [haid]), haid]
  · rw [if_pos haid]

/-! ### Claim theorems -/

/-- C5 counterexample: for the Overview cell `"Jane Doe <br>jane@x.com"` the
code does NOT extract `jane@x.com`: it takes the segment BEFORE `"<br>"`
(`"Jane Doe"`), which fails validation, so no mapping entry is produced. -/
theorem c5_counterexample :
    ¬ extractEmailCell "Jane Doe <br>jane@x.com" = some "jane@x.com" := by
  decide

/-- C5 (amended): `extract_emails` takes the segment of the cell before
`"<br>"`, so a cell of the form `"jane@x.com<br>Jane Doe"` yields
`jane@x.com`, while `"Jane Doe <br>jane@x.com"` yields no entry; and every
accepted candidate contains an `'@'` and no space. -/
theorem c5_extract_email_validation :
    (∀ raw e, extractEmailCell raw = some e →
       e.data.contains '@' = true ∧ e.data.contains ' ' = false)
    ∧ extractEmailCell "jane@x.com<br>Jane Doe" = some "jane@x.com"
    ∧ extractEmailCell "Jane Doe <br>jane@x.com" = none := by
  refine ⟨?_, by decide, by decide⟩
  intro raw e h
  simp only [extractEmailCell] at h
  split at h
  · rename_i hv
    injection h with h'
    subst h'
    simp only [validEmailStr, Bool.and_eq_true, Bool.not_eq_true'] at hv
    exact ⟨hv.1.1.2, hv.1.2⟩
  · exact absurd h (by simp)

/-- C5 witness: the validation part of `c5_extract_email_validation` applied
to the concrete accepted cell `"ab@c"`. -/
theorem c5_extract_email_validation_witness :
    extractEmailCell "ab@c" = some "ab@c" ∧
      ("ab@c".data.contains '@' = true ∧ "ab@c".data.contains ' ' = false) :=
  ⟨by decide, c5_extract_email_validation.1 "ab@c" "ab@c" (by decide)⟩

/-- C6 counterexample: when the plausibility service responds with a parseable
name that was not among the candidates, `validate_names_with_llm` passes it
through, so the output is not a subset of the input. -/
theorem c6_counterexample :
    "Zorg" ∈ validate_names_with_llm ["Ana Lee"] (LLMOutcome.ok ["Zorg"])
    ∧ "Zorg" ∉ ["Ana Lee"] := by
  decide

/-- C6 (amended): the output of `validate_names_with_llm` is a subset of the
input provided the parsed service response is itself a subset of the input
(the code applies no filtering of its own: a successful response is returned
verbatim, every failure returns the input). -/
theorem c6_subset_when_service_subset (names : List String) (outcome : LLMOutcome)
    (h : ∀ p, outcome = LLMOutcome.ok p → p ⊆ names) :
    validate_names_with_llm names outcome ⊆ names := by
  unfold validate_names_with_llm
  by_cases hn : names = []
  · simp [hn]
  · rw [if_neg hn]
    cases outcome with
    | ok parsed => exact h parsed rfl
    | noApiKey => exact List.Subset.refl _
    | transportError => exact List.Subset.refl _
    | badStatus code => exact List.Subset.refl _
    | unparseableBody => exact List.Subset.refl _

/-- C6 witness: a subset-shaped service response stays a subset. -/
theorem c6_subset_when_service_subset_witness :
    validate_names_with_llm ["Ana", "Bob"] (LLMOutcome.ok ["Ana"]) ⊆ ["Ana", "Bob"] :=
  c6_subset_when_service_subset ["Ana", "Bob"] (LLMOutcome.ok ["Ana"])
    (fun p hp => by cases hp; decide)

/-- C7: on a transport error, a non-200 (hence any non-2xx) status, or an
unparseable body, `validate_names_with_llm` returns exactly the input list
unchanged (fail-open). -/
theorem c7_fail_open (names : List String) (code : Nat) :
    validate_names_with_llm names LLMOutcome.transportError = names
    ∧ validate_names_with_llm names (LLMOutcome.badStatus code) = names
    ∧ validate_names_with_llm names LLMOutcome.unparseableBody = names := by
  unfold validate_names_with_llm
  by_cases hn : names = [] <;> simp [hn]

/-- C8: `parse_quiz_date` discards the comma-delimited suffix and parses the
remainder as `"<weekday> <day> <month> <year>"` into an ISO 8601 date string;
in particular `"Mon 03 Mar 2025, 10:00 AM"` gives `"2025-03-03"`, any other
comma suffix gives the same result, and a remainder not of that form is
rejected. -/
theorem c8_parse_quiz_date :
    parse_quiz_date "Mon 03 Mar 2025, 10:00 AM" = some "2025-03-03"
    ∧ pyStrip (String.mk (takeBeforeComma "Mon 03 Mar 2025, 10:00 AM".data)) = "Mon 03 Mar 2025"
    ∧ strptimeWdDdMonYYYY "Mon 03 Mar 2025" = some (2025, 3, 3)
    ∧ parse_quiz_date "Mon 03 Mar 2025, some other suffix" = some "2025-03-03"
    ∧ parse_quiz_date "Mon 03 Mar 2025" = some "2025-03-03"
    ∧ parse_quiz_date "Mon 3 Mar 2025, 10:00 AM" = some "2025-03-03"
    ∧ parse_quiz_date "03 Mar 2025, 10:00 AM" = none
    ∧ parse_quiz_date "Mon 30 Feb 2025, 10:00 AM" = none := by
  decide

/-- C1: with a non-empty `email`, if the `i`-th record of the snapshot is the
first (in top-to-bottom scan order) whose stored email matches the query
case-insensitively (stored emails are compared stripped and lowercased, the
query lowercased) and that record's id parses to `n`, then
`get_or_create_attendee` returns `n` and performs no write: no `update_cell`
and no `append_row`. -/
theorem c1_email_match_returns_first_id_no_write
    (vals read2 read3 : List (List String)) (name email : String)
    (i : Nat) (r : List (String × String)) (n : Int)
    (he : email ≠ "")
    (hr : (recordsOf vals)[i]? = some r)
    (hmatch : emailMatchPred email r = true)
    (hfirst : ∀ j, j < i → ∀ y, (recordsOf vals)[j]? = some y →
      emailMatchPred email y = false)
    (hid : parseId (pyStrip (dget r "id")) = some n) :
    get_or_create_attendee vals read2 read3 name email = ⟨some n, [], []⟩ := by
  rw [goca_email_some he (findIdxRec_of hr hmatch hfirst)]
  rw [hid]

/-- C1 witness: the claim's own case-insensitivity instance — a prior creation
under `ana@x.com` is found when queried with `ANA@X.COM`, with no write. -/
theorem c1_email_match_returns_first_id_no_write_witness :
    get_or_create_attendee [["id", "name", "email"], ["1", "Ana Lee", "ana@x.com"]]
      [] [] "Ana Lee" "ANA@X.COM" = ⟨some 1, [], []⟩ :=
  c1_email_match_returns_first_id_no_write
    [["id", "name", "email"], ["1", "Ana Lee", "ana@x.com"]] [] [] "Ana Lee" "ANA@X.COM"
    0 [("id", "1"), ("name", "Ana Lee"), ("email", "ana@x.com")] 1
    (by decide) (by decide) (by decide)
    (fun j hj => absurd hj (Nat.not_lt_zero j)) (by decide)

theorem appendPhase_updates (read2 read3 : List (List String)) (name email : String) :
    (appendPhase read2 read3 name email).updates = [] := by
  simp only [appendPhase, ite_email_self]
  split
  · rfl
  · split <;> rfl

theorem appendPhase_appends (read2 read3 : List (List String)) (name email : String) :
    (appendPhase read2 read3 name email).appends = [["", name, email]] := by
  simp only [appendPhase, ite_email_self]
  split
  · rfl
  · split <;> rfl

theorem goca_updates_characterization (vals read2 read3 : List (List String))
    (name email : String) :
    (get_or_create_attendee vals read2 read3 name email).updates = []
    ∨ ∃ i r, (recordsOf vals)[i]? = some r
        ∧ pyStrip (dget r "email") = ""
        ∧ pyLower (pyStrip (dget r "name")) = pyStrip (pyLower name)
        ∧ email ≠ ""
        ∧ (get_or_create_attendee vals read2 read3 name email).updates = [(i + 2, 3, email)] := by
  by_cases he : email = ""
  · cases h : findIdxRec (nameMatchPred (pyStrip (pyLower name))) (recordsOf vals) with
    | some q => left; rw [goca_name_some he h]
    | none => left; rw [goca_name_none he h, appendPhase_updates]
  · cases h1 : findIdxRec (emailMatchPred email) (recordsOf vals) with
    | some q => left; rw [goca_email_some he h1]
    | none =>
      cases h2 : findIdxRec (backfillPred (pyStrip (pyLower name))) (recordsOf vals) with
      | none => left; rw [goca_append_of_email he h1 h2, appendPhase_updates]
      | some q =>
        right
        obtain ⟨i, r⟩ := q
        obtain ⟨hget, hp, _⟩ := findIdxRec_eq_some h2
        simp only [backfillPred, Bool.and_eq_true, beq_iff_eq] at hp
        exact ⟨i, r, hget, hp.2, hp.1, he, by rw [goca_backfill_some he h1 h2]⟩

theorem goca_appends_characterization (vals read2 read3 : List (List String))
    (name email : String) :
    (get_or_create_attendee vals read2 read3 name email).appends = []
    ∨ (get_or_create_attendee vals read2 read3 name email).appends = [["", name, email]] := by
  by_cases he : email = ""
  · cases h : findIdxRec (nameMatchPred (pyStrip (pyLower name))) (recordsOf vals) with
    | some q => left; rw [goca_name_some he h]
    | none => right; rw [goca_name_none he h, appendPhase_appends]
  · cases h1 : findIdxRec (emailMatchPred email) (recordsOf vals) with
    | some q => left; rw [goca_email_some he h1]
    | none =>
      cases h2 : findIdxRec (backfillPred (pyStrip (pyLower name))) (recordsOf vals) with
      | some q => left; rw [goca_backfill_some he h1 h2]
      | none => right; rw [goca_append_of_email he h1 h2, appendPhase_appends]

/-- C2: any `update_cell` issued by `get_or_create_attendee` writes the given
`email` into column 3 (the email column) of a row whose stored email is empty
(after stripping) and whose stored name matches the given name
case-insensitively.  In particular a row whose email field is non-empty is
never written, so an email, once present, stays unchanged through every call. -/
theorem c2_backfill_only_on_empty_email
    (vals read2 read3 : List (List String)) (name email : String)
    (u : Nat × Nat × String)
    (hu : u ∈ (get_or_create_attendee vals read2 read3 name email).updates) :
    ∃ i r, (recordsOf vals)[i]? = some r
      ∧ pyStrip (dget r "email") = ""
      ∧ pyLower (pyStrip (dget r "name")) = pyStrip (pyLower name)
      ∧ u = (i + 2, 3, email) := by
  rcases goca_updates_characterization vals read2 read3 name email with
    h | ⟨i, r, hget, hemail, hname, _, hupd⟩
  · rw [h] at hu
    exact absurd hu (List.not_mem_nil u)
  · rw [hupd] at hu
    simp only [List.mem_singleton] at hu
    exact ⟨i, r, hget, hemail, hname, hu⟩

/-- C2 witness: the backfill update issued for the table
`[["1", "Bob", ""]]` when resolving `("Bob", "b@x.com")`. -/
theorem c2_backfill_only_on_empty_email_witness :
    ∃ i r, (recordsOf [["id", "name", "email"], ["1", "Bob", ""]])[i]? = some r
      ∧ pyStrip (dget r "email") = ""
      ∧ pyLower (pyStrip (dget r "name")) = pyStrip (pyLower "Bob")
      ∧ ((2 : Nat), (3 : Nat), "b@x.com") = (i + 2, 3, "b@x.com") :=
  c2_backfill_only_on_empty_email [["id", "name", "email"], ["1", "Bob", ""]] [] []
    "Bob" "b@x.com" (2, 3, "b@x.com") (by decide)

/-- C9: when a matching existing row is found (by email; by name-with-empty-
email backfill; or by name when the query email is empty) but that row's id
field is blank, `get_or_create_attendee` returns `None` — not `0` — and
appends no row; in the backfill case the email cell update has still been
issued before `None` is returned.  `main` counts a `None` id as a skip. -/
theorem c9_blank_id_returns_none (vals read2 read3 : List (List String))
    (name email : String) :
    (∀ q, email ≠ "" →
       findIdxRec (emailMatchPred email) (recordsOf vals) = some q →
       pyStrip (dget q.2 "id") = "" →
       get_or_create_attendee vals read2 read3 name email = ⟨none, [], []⟩)
    ∧ (∀ q, email ≠ "" →
       findIdxRec (emailMatchPred email) (recordsOf vals) = none →
       findIdxRec (backfillPred (pyStrip (pyLower name))) (recordsOf vals) = some q →
       pyStrip (dget q.2 "id") = "" →
       get_or_create_attendee vals read2 read3 name email = ⟨none, [(q.1 + 2, 3, email)], []⟩)
    ∧ (∀ q, email = "" →
       findIdxRec (nameMatchPred (pyStrip (pyLower name))) (recordsOf vals) = some q →
       pyStrip (dget q.2 "id") = "" →
       get_or_create_attendee vals read2 read3 name email = ⟨none, [], []⟩)
    ∧ mainSkipsParticipant none = true := by
  refine ⟨?_, ?_, ?_, rfl⟩
  · intro q he h hid
    rw [goca_email_some he h, hid]
    rfl
  · intro q he h1 h2 hid
    rw [goca_backfill_some he h1 h2, hid]
    rfl
  · intro q he h hid
    rw [goca_name_some he h, hid]
    rfl

/-- C9 witness: an email match on a row whose id cell is blank returns `None`
and appends nothing. -/
theorem c9_blank_id_returns_none_witness :
    get_or_create_attendee [["id", "name", "email"], ["", "Bob", "b@x.com"]] [] []
      "Ana" "b@x.com" = ⟨none, [], []⟩ :=
  (c9_blank_id_returns_none [["id", "name", "email"], ["", "Bob", "b@x.com"]] [] []
    "Ana" "b@x.com").1
    (0, [("id", ""), ("name", "Bob"), ("email", "b@x.com")])
    (by decide) (by decide) (by decide)

/-- C10 (frame property): `get_or_create_attendee` either issues no cell
update, or exactly one — writing `email` into column 3 of the single matched
row, whose stored email is empty and whose name matches; every id and name
cell, and every cell of every other row, is untouched.  The only other write
it can perform is appending the single row `["", name, email]`. -/
theorem c10_frame_effects (vals read2 read3 : List (List String))
    (name email : String) :
    ((get_or_create_attendee vals read2 read3 name email).updates = []
      ∨ ∃ i r, (recordsOf vals)[i]? = some r
          ∧ pyStrip (dget r "email") = ""
          ∧ pyLower (pyStrip (dget r "name")) = pyStrip (pyLower name)
          ∧ (get_or_create_attendee vals read2 read3 name email).updates = [(i + 2, 3, email)])
    ∧ ((get_or_create_attendee vals read2 read3 name email).appends = []
      ∨ (get_or_create_attendee vals read2 read3 name email).appends = [["", name, email]]) := by
  constructor
  · rcases goca_updates_characterization vals read2 read3 name email with
      h | ⟨i, r, hget, hemail, hname, _, hupd⟩
    · exact Or.inl h
    · exact Or.inr ⟨i, r, hget, hemail, hname, hupd⟩
  · exact goca_appends_characterization vals read2 read3 name email

theorem appendPhase_ret_none (read2 read3 : List (List String)) (name email : String)
    (h2 : pyStrip (dget (mkRecord (read2.headD []) (read2.getLastD [])) "id") = "")
    (h3 : pyStrip (dget (mkRecord (read2.headD []) (read3.getLastD [])) "id") = "") :
    (appendPhase read2 read3 name email).ret = none := by
  simp only [appendPhase, ite_email_self]
  split
  · rfl
  · rw [if_neg (by rw [h2]; exact fun h => h rfl), h3]
    rfl

theorem create_session_ret_none (read2 read3 : List (List String))
    (url title date : String)
    (h2 : pyStrip ((read2.getLastD []).headD "") = "")
    (h3 : pyStrip ((read3.getLastD []).headD "") = "") :
    (create_session read2 read3 url title date).ret = none := by
  simp only [create_session]
  split
  · have hsid : (if read2.getLastD [] ≠ [] ∧ (read2.getLastD []).headD "" ≠ ""
        then pyStrip ((read2.getLastD []).headD "") else "") = "" := by
      split
      · exact h2
      · rfl
    have hsid3 : (if read3.getLastD [] ≠ [] ∧ (read3.getLastD []).headD "" ≠ ""
        then pyStrip ((read3.getLastD []).headD "") else "") = "" := by
      split
      · exact h3
      · rfl
    rw [hsid, if_neg (by simp), hsid3]
    rfl
  · rfl

/-- C4: in a run where the store never populates the id column of the newly
appended row within the retry budget (both polling snapshots show a blank id),
`get_or_create_attendee` — in any call that reaches the append — and
`create_session` return no id (`None`, never `0`); `main` then counts the
participant as skipped and continues, while a session without id aborts the
run before any attendance logging. -/
theorem c4_polling_exhausted_reports_failure
    (vals read2 read3 sread2 sread3 : List (List String))
    (name email url title date : String)
    (hApp : (get_or_create_attendee vals read2 read3 name email).appends ≠ [])
    (h2 : pyStrip (dget (mkRecord (read2.headD []) (read2.getLastD [])) "id") = "")
    (h3 : pyStrip (dget (mkRecord (read2.headD []) (read3.getLastD [])) "id") = "")
    (hs2 : pyStrip ((sread2.getLastD []).headD "") = "")
    (hs3 : pyStrip ((sread3.getLastD []).headD "") = "") :
    (get_or_create_attendee vals read2 read3 name email).ret = none
    ∧ mainSkipsParticipant (get_or_create_attendee vals read2 read3 name email).ret = true
    ∧ (create_session sread2 sread3 url title date).ret = none
    ∧ mainAbortsRun (create_session sread2 sread3 url title date).ret = true := by
  have hgoca : (get_or_create_attendee vals read2 read3 name email).ret = none := by
    by_cases he : email = ""
    · cases h : findIdxRec (nameMatchPred (pyStrip (pyLower name))) (recordsOf vals) with
      | some q => exact absurd (by rw [goca_name_some he h]) hApp
      | none =>
        rw [goca_name_none he h]
        exact appendPhase_ret_none read2 read3 name email h2 h3
    · cases h1 : findIdxRec (emailMatchPred email) (recordsOf vals) with
      | some q => exact absurd (by rw [goca_email_some he h1]) hApp
      | none =>
        cases hb : findIdxRec (backfillPred (pyStrip (pyLower name))) (recordsOf vals) with
        | some q => exact absurd (by rw [goca_backfill_some he h1 hb]) hApp
        | none =>
          rw [goca_append_of_email he h1 hb]
          exact appendPhase_ret_none read2 read3 name email h2 h3
  have hcs := create_session_ret_none sread2 sread3 url title date hs2 hs3
  exact ⟨hgoca, by rw [hgoca]; rfl, hcs, by rw [hcs]; rfl⟩

/-- C4 witness: an empty attendee table whose appended row never receives an
id, and a sessions sheet whose appended row likewise stays without id. -/
theorem c4_polling_exhausted_reports_failure_witness :
    (get_or_create_attendee [["id", "name", "email"]]
        [["id", "name", "email"], ["", "Bob", "b@x.com"]]
        [["id", "name", "email"], ["", "Bob", "b@x.com"]] "Bob" "b@x.com").ret = none
    ∧ mainSkipsParticipant (get_or_create_attendee [["id", "name", "email"]]
        [["id", "name", "email"], ["", "Bob", "b@x.com"]]
        [["id", "name", "email"], ["", "Bob", "b@x.com"]] "Bob" "b@x.com").ret = true
    ∧ (create_session [["id", "url", "title", "date"], ["", "u", "t", "d"]]
        [["id", "url", "title", "date"], ["", "u", "t", "d"]] "u" "t" "d").ret = none
    ∧ mainAbortsRun (create_session [["id", "url", "title", "date"], ["", "u", "t", "d"]]
        [["id", "url", "title", "date"], ["", "u", "t", "d"]] "u" "t" "d").ret = true :=
  c4_polling_exhausted_reports_failure
    [["id", "name", "email"]]
    [["id", "name", "email"], ["", "Bob", "b@x.com"]]
    [["id", "name", "email"], ["", "Bob", "b@x.com"]]
    [["id", "url", "title", "date"], ["", "u", "t", "d"]]
    [["id", "url", "title", "date"], ["", "u", "t", "d"]]
    "Bob" "b@x.com" "u" "t" "d"
    (by decide) (by decide) (by decide) (by decide) (by decide)

/-- C3 counterexample: for the email `" b@x.com "` (leading/trailing
whitespace) over the empty attendee table (which trivially has no duplicate
emails), the first call appends a row, the store-assigned id `1` is visible to
the second call, and yet the second call appends a new row again: stored
emails are compared stripped (`.strip().lower()`) but the query email is only
lowercased, so the stored copy of the email never matches the query. -/
theorem c3_counterexample :
    (recordsOf [["id", "name", "email"]]).length = 0
    ∧ (get_or_create_attendee [["id", "name", "email"]]
        ([["id", "name", "email"]] ++ [["1", "Bob", " b@x.com "]])
        ([["id", "name", "email"]] ++ [["1", "Bob", " b@x.com "]])
        "Bob" " b@x.com ").ret = some 1
    ∧ (get_or_create_attendee
        (visibleAfter [["id", "name", "email"]]
          (get_or_create_attendee [["id", "name", "email"]]
            ([["id", "name", "email"]] ++ [["1", "Bob", " b@x.com "]])
            ([["id", "name", "email"]] ++ [["1", "Bob", " b@x.com "]])
            "Bob" " b@x.com ")
          "1")
        [] [] "Bob" " b@x.com ").appends ≠ [] := by
  decide

/-- C3 (amended): over an attendee table with no duplicate emails, for a query
email with no leading or trailing whitespace (`pyStrip email = email`), two
successive `get_or_create_attendee` calls with the same `(name, email)` —
where any row appended by the first call, with the id the store assigned to
it, is visible to the second — give the same returned id, and the second call
appends no new row. -/
theorem c3_second_resolve_same_id_no_append
    (rows read2 vals vals2 : List (List String)) (name email idStr : String)
    (r1 r2 : GocaResult)
    (hvals : vals = ["id", "name", "email"] :: rows)
    (hread2 : read2 = vals ++ [[idStr, name, email]])
    (hr1 : r1 = get_or_create_attendee vals read2 read2 name email)
    (hvals2 : vals2 = visibleAfter vals r1 idStr)
    (hr2 : r2 = get_or_create_attendee vals2 vals2 vals2 name email)
    (hTrim : pyStrip email = email)
    (hNoDup : (((recordsOf vals).map (fun r => pyLower (pyStrip (dget r "email")))).filter
        (fun e => e ≠ "")).Nodup) :
    r2.ret = r1.ret ∧ r2.appends = [] := by
  subst hvals
  subst hread2
  subst hr1
  subst hvals2
  subst hr2
  by_cases he : email = ""
  · -- name-only branch
    cases hn : findIdxRec (nameMatchPred (pyStrip (pyLower name)))
        (recordsOf (["id", "name", "email"] :: rows)) with
    | some q =>
      rw [goca_name_some he hn]
      have hv2 : visibleAfter (["id", "name", "email"] :: rows)
          (⟨parseId (pyStrip (dget q.2 "id")), [], []⟩ : GocaResult) idStr
          = ["id", "name", "email"] :: rows := by
        simp [visibleAfter]
      rw [hv2, goca_name_some he hn]
      exact ⟨rfl, rfl⟩
    | none =>
      rw [goca_name_none he hn,
        appendPhase_concat_self ["id", "name", "email"] rows [idStr, name, email] name email]
      have hidg : dget (mkRecord ["id", "name", "email"] [idStr, name, email]) "id" = idStr := by
        rw [dget_mkRecord_std_id]; rfl
      rw [hidg]
      have hv2 : visibleAfter (["id", "name", "email"] :: rows)
          (⟨parseId (pyStrip idStr), [], [["", name, email]]⟩ : GocaResult) idStr
          = ["id", "name", "email"] :: (rows ++ [[idStr, name, email]]) := rfl
      rw [hv2]
      have hall : ∀ y ∈ rows.map (mkRecord ["id", "name", "email"]),
          nameMatchPred (pyStrip (pyLower name)) y = false := by
        have := (findIdxRec_eq_none _ _).mp hn
        rwa [recordsOf_cons] at this
      have hpredn : nameMatchPred (pyStrip (pyLower name))
          (mkRecord ["id", "name", "email"] [idStr, name, email]) = true := by
        simp only [nameMatchPred, dget_mkRecord_std_name]
        rw [show ([idStr, name, email].getD 1 "") = name from rfl]
        rw [pyStrip_pyLower]
        exact beq_self_eq_true _
      have hfind2 : findIdxRec (nameMatchPred (pyStrip (pyLower name)))
          (recordsOf (["id", "name", "email"] :: (rows ++ [[idStr, name, email]])))
          = some ((rows.map (mkRecord ["id", "name", "email"])).length,
              mkRecord ["id", "name", "email"] [idStr, name, email]) := by
        rw [recordsOf_cons, List.map_append]
        simp only [List.map_cons, List.map_nil]
        rw [findIdxRec_append_singleton hall]
        rw [if_pos hpredn]
      rw [goca_name_some he hfind2, hidg]
      exact ⟨rfl, rfl⟩
  · -- email branch
    cases h1 : findIdxRec (emailMatchPred email)
        (recordsOf (["id", "name", "email"] :: rows)) with
    | some q =>
      rw [goca_email_some he h1]
      have hv2 : visibleAfter (["id", "name", "email"] :: rows)
          (⟨parseId (pyStrip (dget q.2 "id")), [], []⟩ : GocaResult) idStr
          = ["id", "name", "email"] :: rows := by
        simp [visibleAfter]
      rw [hv2, goca_email_some he h1]
      exact ⟨rfl, rfl⟩
    | none =>
      have hall : ∀ y ∈ rows.map (mkRecord ["id", "name", "email"]),
          emailMatchPred email y = false := by
        have := (findIdxRec_eq_none _ _).mp h1
        rwa [recordsOf_cons] at this
      cases hb : findIdxRec (backfillPred (pyStrip (pyLower name)))
          (recordsOf (["id", "name", "email"] :: rows)) with
      | some q =>
        obtain ⟨i, r⟩ := q
        obtain ⟨hget, hp, hprev⟩ := findIdxRec_eq_some hb
        rw [recordsOf_cons, List.getElem?_map] at hget
        cases hrow : rows[i]? with
        | none => rw [hrow] at hget; exact absurd hget (by simp)
        | some row =>
          rw [hrow, Option.map_some'] at hget
          have hrmk : r = mkRecord ["id", "name", "email"] row :=
            (Option.some.injEq _ _ |>.mp hget).symm
          rw [goca_backfill_some he h1 hb]
          have hv2 : visibleAfter (["id", "name", "email"] :: rows)
              (⟨parseId (pyStrip (dget r "id")), [(i + 2, 3, email)], []⟩ : GocaResult) idStr
              = ["id", "name", "email"]
                  :: updateRowV rows i (fun row => setCol0 row 2 email) := by
            show applyUpdate (["id", "name", "email"] :: rows) (i + 2, 3, email) ++ []
              = _
            rw [List.append_nil]
            rfl
          rw [hv2]
          have hget2 : (recordsOf (["id", "name", "email"]
              :: updateRowV rows i (fun row => setCol0 row 2 email)))[i]?
              = some (mkRecord ["id", "name", "email"] (setCol0 row 2 email)) := by
            rw [recordsOf_cons, List.getElem?_map, updateRowV_getElem?_self, hrow,
              Option.map_some', Option.map_some']
          have hpred2 : emailMatchPred email
              (mkRecord ["id", "name", "email"] (setCol0 row 2 email)) = true := by
            simp only [emailMatchPred, dget_mkRecord_std_email, setCol0_getD_self, hTrim]
            exact beq_self_eq_true _
          have hprev2 : ∀ j, j < i → ∀ y,
              (recordsOf (["id", "name", "email"]
                :: updateRowV rows i (fun row => setCol0 row 2 email)))[j]? = some y →
              emailMatchPred email y = false := by
            intro j hj y hy
            rw [recordsOf_cons, List.getElem?_map,
              updateRowV_getElem?_ne rows i j (fun row => setCol0 row 2 email) (by omega),
              ← List.getElem?_map, ← recordsOf_cons] at hy
            have hmem : y ∈ rows.map (mkRecord ["id", "name", "email"]) := by
              rw [recordsOf_cons] at hy
              exact List.getElem?_mem hy
            exact hall y hmem
          rw [goca_email_some he (findIdxRec_of hget2 hpred2 hprev2)]
          have hid2 : dget (mkRecord ["id", "name", "email"] (setCol0 row 2 email)) "id"
              = dget r "id" := by
            rw [dget_mkRecord_std_id, setCol0_getD_lt row 2 0 email (by omega), hrmk,
              dget_mkRecord_std_id]
          rw [hid2]
          exact ⟨rfl, rfl⟩
      | none =>
        rw [goca_append_of_email he h1 hb,
          appendPhase_concat_self ["id", "name", "email"] rows [idStr, name, email] name email]
        have hidg : dget (mkRecord ["id", "name", "email"] [idStr, name, email]) "id"
            = idStr := by
          rw [dget_mkRecord_std_id]; rfl
        rw [hidg]
        have hv2 : visibleAfter (["id", "name", "email"] :: rows)
            (⟨parseId (pyStrip idStr), [], [["", name, email]]⟩ : GocaResult) idStr
            = ["id", "name", "email"] :: (rows ++ [[idStr, name, email]]) := rfl
        rw [hv2]
        have hpred2 : emailMatchPred email
            (mkRecord ["id", "name", "email"] [idStr, name, email]) = true := by
          simp only [emailMatchPred, dget_mkRecord_std_email]
          rw [show ([idStr, name, email].getD 2 "") = email from rfl, hTrim]
          exact beq_self_eq_true _
        have hfind2 : findIdxRec (emailMatchPred email)
            (recordsOf (["id", "name", "email"] :: (rows ++ [[idStr, name, email]])))
            = some ((rows.map (mkRecord ["id", "name", "email"])).length,
                mkRecord ["id", "name", "email"] [idStr, name, email]) := by
          rw [recordsOf_cons, List.map_append]
          simp only [List.map_cons, List.map_nil]
          rw [findIdxRec_append_singleton hall]
          rw [if_pos hpred2]
        rw [goca_email_some he hfind2, hidg]
        exact ⟨rfl, rfl⟩

/-- C3 witness: empty table, then `("Ana", "ana@x.com")` resolved twice; the
first call appends and gets id 7, the second call returns 7 and appends
nothing. -/
theorem c3_second_resolve_same_id_no_append_witness :
    (get_or_create_attendee [["id", "name", "email"], ["7", "Ana", "ana@x.com"]]
        [["id", "name", "email"], ["7", "Ana", "ana@x.com"]]
        [["id", "name", "email"], ["7", "Ana", "ana@x.com"]] "Ana" "ana@x.com").ret
      = (get_or_create_attendee [["id", "name", "email"]]
          [["id", "name", "email"], ["7", "Ana", "ana@x.com"]]
          [["id", "name", "email"], ["7", "Ana", "ana@x.com"]] "Ana" "ana@x.com").ret
    ∧ (get_or_create_attendee [["id", "name", "email"], ["7", "Ana", "ana@x.com"]]
        [["id", "name", "email"], ["7", "Ana", "ana@x.com"]]
        [["id", "name", "email"], ["7", "Ana", "ana@x.com"]] "Ana" "ana@x.com").appends = [] :=
  c3_second_resolve_same_id_no_append []
    [["id", "name", "email"], ["7", "Ana", "ana@x.com"]]
    [["id", "name", "email"]]
    [["id", "name", "email"], ["7", "Ana", "ana@x.com"]]
    "Ana" "ana@x.com" "7"
    (get_or_create_attendee [["id", "name", "email"]]
      [["id", "name", "email"], ["7", "Ana", "ana@x.com"]]
      [["id", "name", "email"], ["7", "Ana", "ana@x.com"]] "Ana" "ana@x.com")
    (get_or_create_attendee [["id", "name", "email"], ["7", "Ana", "ana@x.com"]]
      [["id", "name", "email"], ["7", "Ana", "ana@x.com"]]
      [["id", "name", "email"], ["7", "Ana", "ana@x.com"]] "Ana" "ana@x.com")
    rfl rfl rfl (by decide) rfl (by decide) (by decide)
